import Mathlib

/-
Verification development for the voice-assistant session core
(front/src/components/useVoiceService.js).

The session controller, capture pipeline, playback pipeline and the shared
resampler/encoder are shallowly embedded below.  JavaScript numbers are
modelled as rationals (ℚ); Int16Array element writes are modelled with the
ECMAScript ToInt16 conversion (truncate toward zero, wrap modulo 2^16 into
the signed range); the JavaScript `||` operator on numbers is modelled by
its falsy semantics (0 and an out-of-range read both select the fallback).
-/

namespace Voice

/-- The `status` ref: 'idle' | 'connecting' | 'listening' | 'processing' | 'speaking'. -/
inductive Status where
  | idle
  | connecting
  | listening
  | processing
  | speaking
deriving DecidableEq

/-- WebSocket readyState of the socket held in the `socket` variable. -/
inductive SockState where
  | CONNECTING
  | OPEN
  | CLOSING
  | CLOSED
deriving DecidableEq

/-- The mutable variables of `useVoiceService`, in source declaration order.
`socket = none` models the variable being `null`; when a socket object is
present its readyState is carried.  `mediaStream = some b` carries whether
its tracks are enabled (`track.enabled`); worklet/source/analyser handles
are modelled by presence booleans. -/
structure Session where
  status : Status
  finalAnswer : String
  userAnalyser : Bool
  aiAnalyser : Bool
  socket : Option SockState
  audioContext : Bool
  userSourceNode : Bool
  userWorkletNode : Bool
  mediaStream : Option Bool
  ttsWorkletNode : Bool
  sttLocked : Bool
  ttsPlaying : Bool
deriving DecidableEq

/-- Initial values of all variables when the composable is created. -/
def initSession : Session :=
  { status := Status.idle
    finalAnswer := ""
    userAnalyser := false
    aiAnalyser := false
    socket := none
    audioContext := false
    userSourceNode := false
    userWorkletNode := false
    mediaStream := none
    ttsWorkletNode := false
    sttLocked := false
    ttsPlaying := false }

/-- `stopListening()`: if a media stream exists, disable its tracks. -/
def stopListening (s : Session) : Session :=
  match s.mediaStream with
  | some _ => { s with mediaStream := some false }
  | none => s

/-- `stopSession()`: early return when already idle; otherwise mute, close and
null the socket, stop and null the media stream, disconnect and null all
nodes, and reset the flags and status. -/
def stopSession (s : Session) : Session :=
  if s.status = Status.idle then s
  else
    let s := stopListening s
    { s with
      socket := none
      mediaStream := none
      userSourceNode := false
      userWorkletNode := false
      ttsWorkletNode := false
      sttLocked := false
      ttsPlaying := false
      status := Status.idle
      userAnalyser := false
      aiAnalyser := false }

/-- `startListening()`: early return when the capture lock is set or the
socket is absent or not OPEN; otherwise set status to 'listening', clear the
final answer, acquire the microphone and processing graph if no stream is
held (the `micOk` parameter models whether `getUserMedia` succeeds; on
failure the catch block runs `stopSession`), then enable the tracks. -/
def startListening (s : Session) (micOk : Bool) : Session :=
  if s.sttLocked ∨ ¬ s.socket = some SockState.OPEN then s
  else
    let s := { s with status := Status.listening, finalAnswer := "" }
    match s.mediaStream with
    | none =>
        if micOk then
          { s with
            mediaStream := some true
            userSourceNode := true
            userAnalyser := true
            userWorkletNode := true }
        else stopSession s
    | some _ => { s with mediaStream := some true }

/-- `initTtsPlayer()`: lazily create the PCM player worklet node and the AI
analyser; a second call is a no-op. -/
def initTtsPlayer (s : Session) : Session :=
  if s.ttsWorkletNode then s
  else { s with ttsWorkletNode := true, aiAnalyser := true }

/-- Session-level effect of `pushTtsChunkBase64`: early return without a
player node; otherwise post the chunk to the worklet (modelled separately as
`pcmChunk`) and, on the first chunk of a turn, flip status to 'speaking' and
set `ttsPlaying`. -/
def pushTtsChunkBase64 (s : Session) : Session :=
  if ¬ s.ttsWorkletNode then s
  else if ¬ s.ttsPlaying then { s with status := Status.speaking, ttsPlaying := true }
  else s

/-- `endTtsStream()`: posts the 'end' message to the player worklet (modelled
separately as `pcmEnd`); no session variable changes. -/
def endTtsStream (s : Session) : Session :=
  s

/-- `startSession()`: early return when not idle; otherwise set status to
'connecting', create the audio context and open a fresh WebSocket. -/
def startSession (s : Session) : Session :=
  if ¬ s.status = Status.idle then s
  else
    { s with
      status := Status.connecting
      audioContext := true
      socket := some SockState.CONNECTING }

/-- `toggleSession()`: start when idle, stop otherwise. -/
def toggleSession (s : Session) : Session :=
  if s.status = Status.idle then startSession s else stopSession s

/-- `socket.onmessage` case 'stt_end': stop listening, lock capture, status
'processing'. -/
def onSttEnd (s : Session) : Session :=
  let s := stopListening s
  { s with sttLocked := true, status := Status.processing }

/-- `socket.onmessage` case 'final_answer': record the text, status
'processing', init the TTS player, lock capture. -/
def onFinalAnswer (s : Session) (text : String) : Session :=
  let s := { s with finalAnswer := text, status := Status.processing }
  let s := initTtsPlayer s
  { s with sttLocked := true }

/-- `socket.onmessage` case 'tts_chunk': lock capture and stop listening if
not already locked, lazily init the TTS player, then push the chunk. -/
def onTtsChunk (s : Session) : Session :=
  let s := if ¬ s.sttLocked then stopListening { s with sttLocked := true } else s
  let s := if ¬ s.ttsWorkletNode then initTtsPlayer s else s
  pushTtsChunkBase64 s

/-- `socket.onmessage` case 'tts_end'. -/
def onTtsEnd (s : Session) : Session :=
  endTtsStream s

/-- `socket.onmessage` case 'error': tear the session down. -/
def onErrorMessage (s : Session) : Session :=
  stopSession s

/-- `socket.onopen`: the socket becomes OPEN and `startListening` runs.  The
handler only exists while a created socket is connecting. -/
def onSocketOpen (s : Session) (micOk : Bool) : Session :=
  if s.socket = some SockState.CONNECTING then
    startListening { s with socket := some SockState.OPEN } micOk
  else s

/-- `socket.onerror`: tear the session down. -/
def onSocketError (s : Session) : Session :=
  if s.socket.isSome then stopSession s else s

/-- `socket.onclose`: the socket's readyState becomes CLOSED and the handler
body runs, which only assigns `status.value = 'idle'` — it does not run
`stopSession`, so every other variable keeps its value. -/
def onSocketClose (s : Session) : Session :=
  if s.socket.isSome then { s with socket := some SockState.CLOSED, status := Status.idle }
  else s

/-- `ttsWorkletNode.port.onmessage` receiving `{type:'ended'}`: clear the
playback and capture-lock flags, then resume listening when the socket is
OPEN, otherwise stop the session.  The handler only exists while the player
worklet node does. -/
def onPlaybackEnded (s : Session) (micOk : Bool) : Session :=
  if ¬ s.ttsWorkletNode then s
  else
    let s := { s with ttsPlaying := false, sttLocked := false }
    if s.socket = some SockState.OPEN then startListening s micOk
    else stopSession s

/-- The capture-lock invariant claimed in the spec: `sttLocked` is true in
'processing' and 'speaking' and false in 'idle' and 'listening'. -/
def captureLockInvariant (s : Session) : Prop :=
  ((s.status = Status.processing ∨ s.status = Status.speaking) → s.sttLocked = true) ∧
  ((s.status = Status.idle ∨ s.status = Status.listening) → s.sttLocked = false)

instance (s : Session) : Decidable (captureLockInvariant s) := by
  unfold captureLockInvariant
  infer_instance

/-- The session reached by: toggle on, socket opens (microphone granted),
'stt_end' arrives, then the server closes the connection unexpectedly. -/
def closeAfterSttEnd : Session :=
  onSocketClose (onSttEnd (onSocketOpen (startSession initSession) true))

/-- C1: the capture-lock invariant does not hold in every reachable session
state.  After start, open, and 'stt_end' (status 'processing', lock set), an
unexpected connection close — a step the controller performs via
`socket.onclose` — leaves the session at status 'idle' with `sttLocked`
still true, so the claimed invariant "`sttLocked` is false whenever status
is 'idle'" is violated in a reachable state. -/
theorem close_breaks_capture_lock_invariant :
    closeAfterSttEnd.status = Status.idle ∧
    closeAfterSttEnd.sttLocked = true ∧
    ¬ captureLockInvariant closeAfterSttEnd := by
  decide

/-- The session reached by: toggle on, socket opens, 'stt_end', a 'tts_chunk'
(status 'speaking', player initialised), then the server closes the
connection unexpectedly. -/
def closeWhileSpeaking : Session :=
  onSocketClose (onTtsChunk (onSttEnd (onSocketOpen (startSession initSession) true)))

/-- C7: an unexpected connection close does not funnel through the idempotent
teardown routine.  From the 'speaking' state, the `onclose` handler leaves
the microphone stream, both worklet nodes and the flags in place (where
`stopSession` from the same pre-close state releases them all), and the
session is left so inconsistent that a subsequent restart hangs: after
toggling back on and the new socket opening, `startListening` is blocked by
the stale `sttLocked` and status stays 'connecting'. -/
theorem close_skips_teardown :
    closeWhileSpeaking.status = Status.idle ∧
    closeWhileSpeaking.sttLocked = true ∧
    closeWhileSpeaking.ttsPlaying = true ∧
    closeWhileSpeaking.mediaStream ≠ none ∧
    closeWhileSpeaking.userWorkletNode = true ∧
    closeWhileSpeaking.ttsWorkletNode = true ∧
    closeWhileSpeaking.socket ≠ none ∧
    (stopSession (onTtsChunk (onSttEnd (onSocketOpen (startSession initSession) true)))).mediaStream = none ∧
    (stopSession (onTtsChunk (onSttEnd (onSocketOpen (startSession initSession) true)))).sttLocked = false ∧
    (onSocketOpen (toggleSession closeWhileSpeaking) true).status = Status.connecting := by
  decide

/-- C9: `toggleSession` dispatches on status alone — it starts from 'idle'
(moving to 'connecting' with a freshly created socket) and stops otherwise —
and `startSession` outside 'idle' and `stopSession` in 'idle' return the
state unchanged. -/
theorem toggleSession_spec (s : Session) :
    (s.status = Status.idle →
      toggleSession s = startSession s ∧
      (toggleSession s).status = Status.connecting ∧
      (toggleSession s).socket = some SockState.CONNECTING) ∧
    (¬ s.status = Status.idle → toggleSession s = stopSession s) ∧
    (¬ s.status = Status.idle → startSession s = s) ∧
    (s.status = Status.idle → stopSession s = s) := by
  refine ⟨?_, ?_, ?_, ?_⟩
  · intro h
    refine ⟨if_pos h, ?_, ?_⟩ <;> simp [toggleSession, startSession, h]
  · intro h
    exact if_neg h
  · intro h
    simp [startSession, h]
  · intro h
    simp [stopSession, h]

/-- Witness for C9 at concrete states: toggling from the initial (idle) state
starts a session, stopping in 'idle' is the identity, and starting while
'listening' is the identity. -/
theorem toggleSession_spec_witness :
    toggleSession initSession = startSession initSession ∧
    stopSession initSession = initSession ∧
    startSession { initSession with status := Status.listening } =
      { initSession with status := Status.listening } :=
  ⟨((toggleSession_spec initSession).1 rfl).1,
   (toggleSession_spec initSession).2.2.2 rfl,
   (toggleSession_spec { initSession with status := Status.listening }).2.2.1 (by decide)⟩

/-- `Math.round`: round half toward positive infinity. -/
def jsRound (x : ℚ) : Int :=
  ⌊x + 1 / 2⌋

/-- Truncation toward zero, the ECMAScript ToIntegerOrInfinity step of an
Int16Array element write. -/
def jsTrunc (x : ℚ) : Int :=
  if 0 ≤ x then ⌊x⌋ else ⌈x⌉

/-- The ECMAScript ToInt16 conversion applied when a number is stored into an
Int16Array: truncate toward zero, wrap modulo 2^16, reinterpret as signed. -/
def jsToInt16 (x : ℚ) : Int :=
  let m := jsTrunc x % 65536
  if 32768 ≤ m then m - 65536 else m

/-- JavaScript `a || b` on numeric reads: the fallback is chosen when the read
is falsy, i.e. an out-of-range access (undefined, modelled by the default 0 of
`getD`) or a stored 0. -/
def jsFalsyOr (a b : ℚ) : ℚ :=
  if a = 0 then b else a

theorem jsFalsyOr_zero (a : ℚ) : jsFalsyOr a 0 = a := by
  unfold jsFalsyOr
  split <;> simp_all

theorem ceil_eq_neg_floor_neg (a : ℚ) : ⌈a⌉ = -⌊-a⌋ := by
  rw [Int.floor_neg, neg_neg]

theorem jsTrunc_intCast (n : ℤ) : jsTrunc ((n : ℤ) : ℚ) = n := by
  unfold jsTrunc
  split
  · exact Int.floor_intCast n
  · exact Int.ceil_intCast n

/-- `ResamplerProcessor.resample` (capture side): identity at equal rates,
otherwise `Math.round(len * ratio)` output samples interpolated between the
floor and ceil source positions, out-of-range reads falling back through
`|| 0`. -/
def resample (audioBuffer : List ℚ) (fromSampleRate toSampleRate : ℚ) : List ℚ :=
  if fromSampleRate = toSampleRate then audioBuffer
  else
    let ratio := toSampleRate / fromSampleRate
    let newLength := jsRound ((audioBuffer.length : ℚ) * ratio)
    (List.range newLength.toNat).map fun (i : ℕ) =>
      let pos : ℚ := (i : ℚ) / ratio
      let low := ⌊pos⌋
      let high := ⌈pos⌉
      let lv := jsFalsyOr (audioBuffer.getD low.toNat 0) 0
      let hv := jsFalsyOr (audioBuffer.getD high.toNat 0) 0
      lv + (hv - lv) * (pos - (low : ℚ))

/-- The capture-side resampler as the claim words it: `round(len * Rout/Rin)`
samples, source position `i * Rin/Rout`, `low = floor`, `high = ceil`,
out-of-range source samples treated as 0. -/
def resampleSpecRound (input : List ℚ) (rin rout : ℚ) : List ℚ :=
  if rin = rout then input
  else
    (List.range (jsRound ((input.length : ℚ) * rout / rin)).toNat).map fun (i : ℕ) =>
      let pos : ℚ := (i : ℚ) * rin / rout
      let low := ⌊pos⌋
      let high := ⌈pos⌉
      let lv := input.getD low.toNat 0
      let hv := input.getD high.toNat 0
      lv + (hv - lv) * (pos - (low : ℚ))

/-- `PCMPlayer.resampleLinear` (playback side): identity at equal rates,
otherwise `Math.floor(len * ratio)` output samples; the second source sample
falls back through `|| s0`. -/
def resampleLinear (input : List ℚ) (fromRate toRate : ℚ) : List ℚ :=
  if fromRate = toRate then input
  else
    let ratio := toRate / fromRate
    let outLen := ⌊(input.length : ℚ) * ratio⌋
    (List.range outLen.toNat).map fun (i : ℕ) =>
      let pos : ℚ := (i : ℚ) / ratio
      let idx := ⌊pos⌋
      let frac := pos - (idx : ℚ)
      let s0 := jsFalsyOr (input.getD idx.toNat 0) 0
      let s1 := jsFalsyOr (input.getD (idx.toNat + 1) 0) s0
      s0 + (s1 - s0) * frac

/-- The playback-side resampler as the amended claim words it:
`floor(len * Rout/Rin)` samples, source position `i * Rin/Rout`, the first
sample read with 0 for out-of-range, and the second sample taken at `low+1`
but replaced by the first sample whenever that read is out of range or holds
the value 0. -/
def resampleLinearSpecFloor (input : List ℚ) (rin rout : ℚ) : List ℚ :=
  if rin = rout then input
  else
    (List.range ⌊(input.length : ℚ) * rout / rin⌋.toNat).map fun (i : ℕ) =>
      let pos : ℚ := (i : ℚ) * rin / rout
      let low := ⌊pos⌋
      let s0 := input.getD low.toNat 0
      let s1 := if input.getD (low.toNat + 1) 0 = 0 then s0 else input.getD (low.toNat + 1) 0
      s0 + (s1 - s0) * (pos - (low : ℚ))

/-- C3 counterexample: the playback resampler emits `floor(len * Rout/Rin)`
samples, not `round(len * Rout/Rin)` as the claim states for both sides — on
a one-sample buffer resampled from rate 2 to rate 3 it emits 1 sample where
the claim demands 2. -/
theorem resampleLinear_length_counterexample :
    (resampleLinear [(1 : ℚ)] 2 3).length = 1 ∧
    (jsRound ((([(1 : ℚ)].length : ℚ) * 3) / 2)).toNat = 2 ∧
    ¬ (resampleLinear [(1 : ℚ)] 2 3).length
        = (jsRound ((([(1 : ℚ)].length : ℚ) * 3) / 2)).toNat := by
  have h1 : (resampleLinear [(1 : ℚ)] 2 3).length = 1 := by
    norm_num [resampleLinear]
  have h2 : (jsRound ((([(1 : ℚ)].length : ℚ) * 3) / 2)).toNat = 2 := by
    norm_num [jsRound]
    omega
  exact ⟨h1, h2, by rw [h1, h2]; decide⟩

/-- C3 (amended): the capture-side `resample` satisfies the claimed formula
exactly (round length, floor/ceil neighbours, 0 for out-of-range reads), both
resamplers are the identity at equal rates, and the playback-side
`resampleLinear` satisfies the formula with floor length, `low+1` as the
second position, and fallback of the second sample to the first when that
read is out of range or zero. -/
theorem resample_amended (input : List ℚ) (rin rout : ℚ) :
    resample input rin rout = resampleSpecRound input rin rout ∧
    (rin = rout → resample input rin rout = input ∧ resampleLinear input rin rout = input) ∧
    resampleLinear input rin rout = resampleLinearSpecFloor input rin rout := by
  refine ⟨?_, ?_, ?_⟩
  · by_cases h : rin = rout
    · simp [resample, resampleSpecRound, h]
    · simp only [resample, resampleSpecRound, if_neg h]
      rw [show (input.length : ℚ) * (rout / rin) = (input.length : ℚ) * rout / rin from
        (mul_div_assoc _ _ _).symm]
      refine List.map_congr_left fun i _ => ?_
      rw [div_div_eq_mul_div, jsFalsyOr_zero, jsFalsyOr_zero]
  · intro h
    constructor <;> simp [resample, resampleLinear, h]
  · by_cases h : rin = rout
    · simp [resampleLinear, resampleLinearSpecFloor, h]
    · simp only [resampleLinear, resampleLinearSpecFloor, if_neg h]
      rw [show (input.length : ℚ) * (rout / rin) = (input.length : ℚ) * rout / rin from
        (mul_div_assoc _ _ _).symm]
      refine List.map_congr_left fun i _ => ?_
      rw [div_div_eq_mul_div, jsFalsyOr_zero]
      rfl

/-- Witness for C3 at concrete inputs: the capture formula agreement on a
two-sample buffer resampled 2→3, and the equal-rate identities at rate 5. -/
theorem resample_amended_witness :
    resample [(1 : ℚ), 2] 2 3 = resampleSpecRound [(1 : ℚ), 2] 2 3 ∧
    resample [(1 : ℚ), 2] 5 5 = [(1 : ℚ), 2] ∧
    resampleLinear [(1 : ℚ), 2] 5 5 = [(1 : ℚ), 2] ∧
    resampleLinear [(1 : ℚ), 2] 2 3 = resampleLinearSpecFloor [(1 : ℚ), 2] 2 3 :=
  ⟨(resample_amended [(1 : ℚ), 2] 2 3).1,
   ((resample_amended [(1 : ℚ), 2] 5 5).2.1 rfl).1,
   ((resample_amended [(1 : ℚ), 2] 5 5).2.1 rfl).2,
   (resample_amended [(1 : ℚ), 2] 2 3).2.2⟩

/-- `ResamplerProcessor.float32ToInt16` per sample: `Math.min(1, x) * 0x7FFF`
stored into an Int16Array slot — note there is no lower clamp. -/
def quantizeSample (x : ℚ) : Int :=
  jsToInt16 (min 1 x * 32767)

/-- `ResamplerProcessor.float32ToInt16` over a buffer (the backwards loop
writes exactly the per-sample transform at every index). -/
def float32ToInt16 (buffer : List ℚ) : List Int :=
  buffer.map quantizeSample

/-- PCMPlayer chunk decode per sample: `Math.max(-1, Math.min(1, q / 32768))`. -/
def int16ToFloatSample (q : Int) : ℚ :=
  max (-1) (min 1 ((q : ℚ) / 32768))

/-- Quantization as the claim words it: `clamp(x, -1, 1) * 32767`, truncated
toward zero. -/
def specQuantize (x : ℚ) : Int :=
  jsTrunc (max (-1) (min 1 x) * 32767)

theorem jsTrunc_range {x : ℚ} (h1 : -32767 ≤ x) (h2 : x ≤ 32767) :
    -32767 ≤ jsTrunc x ∧ jsTrunc x ≤ 32767 := by
  unfold jsTrunc
  by_cases h0 : (0 : ℚ) ≤ x
  · rw [if_pos h0]
    constructor
    · have : (0 : ℤ) ≤ ⌊x⌋ := Int.le_floor.mpr (by exact_mod_cast h0)
      omega
    · have hfl : (⌊x⌋ : ℚ) ≤ 32767 := le_trans (Int.floor_le x) h2
      exact_mod_cast hfl
  · rw [if_neg h0]
    constructor
    · have hce : (-32767 : ℚ) ≤ (⌈x⌉ : ℚ) := le_trans h1 (Int.le_ceil x)
      exact_mod_cast hce
    · have : ⌈x⌉ ≤ (0 : ℤ) := Int.ceil_le.mpr (by push_cast; linarith)
      omega

theorem jsTrunc_close (x : ℚ) : |x - (jsTrunc x : ℚ)| < 1 := by
  unfold jsTrunc
  by_cases h0 : (0 : ℚ) ≤ x
  · rw [if_pos h0, abs_sub_lt_iff]
    constructor
    · have := Int.lt_floor_add_one x
      linarith
    · have := Int.floor_le x
      linarith
  · rw [if_neg h0, abs_sub_lt_iff]
    constructor
    · have := Int.le_ceil x
      linarith
    · have := Int.ceil_lt_add_one x
      linarith

theorem jsToInt16_eq_jsTrunc {x : ℚ} (h1 : -32767 ≤ jsTrunc x) (h2 : jsTrunc x ≤ 32767) :
    jsToInt16 x = jsTrunc x := by
  simp only [jsToInt16]
  split <;> omega

theorem int16ToFloat_in_range {q : Int} (h1 : -32768 ≤ q) (h2 : q ≤ 32767) :
    int16ToFloatSample q = (q : ℚ) / 32768 := by
  unfold int16ToFloatSample
  have hc1 : (-32768 : ℚ) ≤ (q : ℚ) := by exact_mod_cast h1
  have hc2 : (q : ℚ) ≤ 32767 := by exact_mod_cast h2
  rw [min_eq_right, max_eq_right]
  · rw [le_div_iff (by norm_num : (0 : ℚ) < 32768)]
    linarith
  · rw [div_le_one (by norm_num : (0 : ℚ) < 32768)]
    linarith

/-- C4 counterexample: the capture quantizer has no lower clamp, so a sample
below −1 wraps through the Int16Array write instead of clamping — at x = −2
the code produces +2 where the claim's `clamp(x,-1,1) * 32767` gives −32767. -/
theorem quantize_below_neg_one_counterexample :
    quantizeSample (-2) = 2 ∧ specQuantize (-2) = -32767 ∧ ¬ ((2 : ℤ) = -32767) := by
  refine ⟨?_, ?_, by decide⟩
  · show jsToInt16 (min 1 (-2) * 32767) = 2
    rw [show min (1 : ℚ) (-2) * 32767 = ((-65534 : ℤ) : ℚ) by norm_num]
    unfold jsToInt16
    rw [jsTrunc_intCast]
    norm_num
  · show jsTrunc (max (-1) (min 1 (-2)) * 32767) = -32767
    rw [show max (-1 : ℚ) (min 1 (-2)) * 32767 = ((-32767 : ℤ) : ℚ) by norm_num]
    exact jsTrunc_intCast (-32767)

/-- C4 (amended): for every sample x ≥ −1 the capture quantizer agrees with
the claimed `clamp(x,-1,1) * 32767` truncation (the upper clamp is present,
and no wrap occurs in that range), and the playback dequantizer yields
exactly q / 32768 on every sample in the signed 16-bit range. -/
theorem quantize_dequantize_amended :
    (∀ x : ℚ, -1 ≤ x → quantizeSample x = specQuantize x) ∧
    (∀ q : Int, -32768 ≤ q → q ≤ 32767 → int16ToFloatSample q = (q : ℚ) / 32768) := by
  constructor
  · intro x hx
    unfold quantizeSample specQuantize
    rw [max_eq_right (le_min (by norm_num) hx)]
    have hm1 : min (1 : ℚ) x ≤ 1 := min_le_left 1 x
    have hm2 : -1 ≤ min (1 : ℚ) x := le_min (by norm_num) hx
    have hy1 : min (1 : ℚ) x * 32767 ≤ 32767 := by nlinarith
    have hy2 : -32767 ≤ min (1 : ℚ) x * 32767 := by nlinarith
    obtain ⟨hta, htb⟩ := jsTrunc_range hy2 hy1
    exact jsToInt16_eq_jsTrunc hta htb
  · intro q h1 h2
    exact int16ToFloat_in_range h1 h2

/-- Witness for C4 at concrete inputs x = 1/2 and q = −12345. -/
theorem quantize_dequantize_amended_witness :
    quantizeSample (1 / 2) = specQuantize (1 / 2) ∧
    int16ToFloatSample (-12345) = ((-12345 : ℤ) : ℚ) / 32768 :=
  ⟨quantize_dequantize_amended.1 (1 / 2) (by norm_num),
   quantize_dequantize_amended.2 (-12345) (by norm_num) (by norm_num)⟩

/-- C5 counterexample: quantize-then-dequantize can err by about 1.5
quantization steps, exceeding the claimed bound of one step (1/32768): at
x = −65533/65534 (inside [−1, 1]) the reconstruction error is
49150/1073709056 ≈ 1.5/32768 > 1/32768. -/
theorem roundtrip_exceeds_one_step :
    -1 ≤ -(65533 / 65534 : ℚ) ∧ -(65533 / 65534 : ℚ) ≤ 1 ∧
    1 / 32768 <
      |int16ToFloatSample (quantizeSample (-(65533 / 65534))) - (-(65533 / 65534) : ℚ)| := by
  refine ⟨by norm_num, by norm_num, ?_⟩
  have hq : quantizeSample (-(65533 / 65534)) = -32766 := by
    show jsToInt16 (min 1 (-(65533 / 65534)) * 32767) = -32766
    rw [show min (1 : ℚ) (-(65533 / 65534)) * 32767 = -(65533 / 2) by norm_num]
    unfold jsToInt16
    rw [show jsTrunc (-(65533 / 2) : ℚ) = -32766 by
      unfold jsTrunc
      rw [if_neg (by norm_num), ceil_eq_neg_floor_neg]
      norm_num]
    norm_num
  rw [hq, int16ToFloat_in_range (by norm_num) (by norm_num)]
  rw [show ((-32766 : ℤ) : ℚ) = -32766 by push_cast; ring]
  rw [abs_of_pos (by norm_num)]
  norm_num

/-- C5 (amended): for every x ∈ [−1, 1], quantize-then-dequantize returns a
value within two quantization steps of x: the error is strictly below
1/16384 = 2/32768 (the one-step bound 1/32768 in the claim is too tight). -/
theorem roundtrip_within_two_steps (x : ℚ) (h1 : -1 ≤ x) (h2 : x ≤ 1) :
    |int16ToFloatSample (quantizeSample x) - x| < 1 / 16384 := by
  have hy1 : x * 32767 ≤ 32767 := by nlinarith
  have hy2 : -32767 ≤ x * 32767 := by nlinarith
  obtain ⟨hta, htb⟩ := jsTrunc_range hy2 hy1
  have hq : quantizeSample x = jsTrunc (x * 32767) := by
    unfold quantizeSample
    rw [min_eq_right h2]
    exact jsToInt16_eq_jsTrunc hta htb
  set t := jsTrunc (x * 32767) with ht
  have hd : int16ToFloatSample t = (t : ℚ) / 32768 :=
    int16ToFloat_in_range (by omega) (by omega)
  rw [hq, hd]
  have hclose : |x * 32767 - (t : ℚ)| < 1 := jsTrunc_close (x * 32767)
  have hclose' : |(t : ℚ) - x * 32767| < 1 := by
    rw [abs_sub_comm] at hclose
    exact hclose
  have habs : |x| ≤ 1 := abs_le.mpr ⟨h1, h2⟩
  have key : |(t : ℚ) - 32768 * x| < 2 := by
    have hsplit : (t : ℚ) - 32768 * x = ((t : ℚ) - x * 32767) + (-x) := by ring
    rw [hsplit]
    have tri := abs_add ((t : ℚ) - x * 32767) (-x)
    rw [abs_neg] at tri
    linarith
  have hrew : (t : ℚ) / 32768 - x = ((t : ℚ) - 32768 * x) / 32768 := by ring
  rw [hrew, abs_div, abs_of_pos (by norm_num : (0 : ℚ) < 32768),
    div_lt_iff (by norm_num : (0 : ℚ) < 32768)]
  linarith

/-- Witness for C5 at x = 1/2. -/
theorem roundtrip_within_two_steps_witness :
    |int16ToFloatSample (quantizeSample (1 / 2)) - (1 / 2 : ℚ)| < 1 / 16384 :=
  roundtrip_within_two_steps (1 / 2) (by norm_num) (by norm_num)

/-- The base64 alphabet used by `btoa`/`atob`. -/
def b64chars : List Char :=
  "ABCDEFGHIJKLMNOPQRSTUVWXYZabcdefghijklmnopqrstuvwxyz0123456789+/".toList

/-- Encode one 6-bit value as a base64 character. -/
def encChar (n : Nat) : Char :=
  b64chars.getD n 'A'

/-- Decode a base64 character back to its 6-bit value. -/
def decChar (c : Char) : Nat :=
  b64chars.findIdx (fun x => x == c)

/-- `btoa` over a byte sequence: standard base64 with '=' padding, bytes split
into 6-bit groups high bits first. -/
def b64encode : List Nat → List Char
  | [] => []
  | [a] => [encChar (a / 4), encChar (a % 4 * 16), '=', '=']
  | [a, b] => [encChar (a / 4), encChar (a % 4 * 16 + b / 16), encChar (b % 16 * 4), '=']
  | a :: b :: c :: rest =>
      encChar (a / 4) :: encChar (a % 4 * 16 + b / 16) ::
        encChar (b % 16 * 4 + c / 64) :: encChar (c % 64) :: b64encode rest

/-- `atob` over base64 text: each 4-character group yields 3 bytes, or fewer
at the end under '=' padding. -/
def b64decode : List Char → List Nat
  | c1 :: c2 :: c3 :: c4 :: rest =>
      if c3 = '=' then [decChar c1 * 4 + decChar c2 / 16]
      else if c4 = '=' then
        [decChar c1 * 4 + decChar c2 / 16, decChar c2 % 16 * 16 + decChar c3 / 4]
      else
        (decChar c1 * 4 + decChar c2 / 16) :: (decChar c2 % 16 * 16 + decChar c3 / 4) ::
          (decChar c3 % 4 * 64 + decChar c4) :: b64decode rest
  | _ => []

theorem decChar_encChar : ∀ n, n < 64 → decChar (encChar n) = n := by
  decide

theorem encChar_ne_pad : ∀ n, n < 64 → ¬ encChar n = '=' := by
  decide

/-- The little-endian byte pair a sample occupies in the Int16Array buffer
viewed through Uint8Array: low byte first. -/
def int16ToBytes (q : Int) : List Nat :=
  let u := (q % 65536).toNat
  [u % 256, u / 256]

/-- The whole Int16Array buffer as the byte sequence the capture handler
encodes with `btoa(String.fromCharCode(...))`. -/
def int16ArrayToBytes (qs : List Int) : List Nat :=
  (qs.map int16ToBytes).flatten

/-- The decode loop of `pushTtsChunkBase64`: consecutive byte pairs are
reassembled as `(hi << 8) | lo` and stored into an Int16Array, which wraps
values at or above 2^15 into the negative range. -/
def bytesToInt16 : List Nat → List Int
  | lo :: hi :: rest =>
      (if 32768 ≤ hi * 256 + lo then (hi * 256 + lo : Int) - 65536
       else (hi * 256 + lo : Int)) :: bytesToInt16 rest
  | _ => []

/-- `userWorkletNode.port.onmessage`: drop the frame when the capture lock is
set, the socket variable is null, or the socket is not OPEN; otherwise
base64-encode the frame bytes and send them.  The result is `some` sent
payload or `none` (dropped; no queue exists). -/
def captureFrameSend (sttLocked : Bool) (socket : Option SockState) (frame : List Nat) :
    Option (List Char) :=
  if sttLocked then none
  else
    match socket with
    | none => none
    | some st => if ¬ st = SockState.OPEN then none else some (b64encode frame)

/-- C2: a capture frame is transmitted iff the capture lock is unset and the
socket exists in the OPEN state; in every other situation the handler
returns `none` — the frame is dropped, never queued. -/
theorem capture_send_gate (sttLocked : Bool) (socket : Option SockState) (frame : List Nat) :
    (captureFrameSend sttLocked socket frame = none ↔
      (sttLocked = true ∨ ¬ socket = some SockState.OPEN)) ∧
    (sttLocked = false → socket = some SockState.OPEN →
      captureFrameSend sttLocked socket frame = some (b64encode frame)) := by
  constructor
  · rcases socket with _ | st
    · cases sttLocked <;> simp [captureFrameSend]
    · cases sttLocked <;> cases st <;> simp [captureFrameSend]
  · intro hl hs
    subst hl hs
    simp [captureFrameSend]

/-- Witness for C2: with the lock clear and an OPEN socket the frame goes out;
with the lock set it is dropped. -/
theorem capture_send_gate_witness :
    captureFrameSend false (some SockState.OPEN) [104, 105] = some (b64encode [104, 105]) ∧
    captureFrameSend true (some SockState.OPEN) [104, 105] = none :=
  ⟨(capture_send_gate false (some SockState.OPEN) [104, 105]).2 rfl rfl,
   (capture_send_gate true (some SockState.OPEN) [104, 105]).1.mpr (Or.inl rfl)⟩

theorem b64_roundtrip : ∀ bs : List Nat, (∀ x ∈ bs, x < 256) → b64decode (b64encode bs) = bs
  | [], _ => rfl
  | [a], h => by
      have ha : a < 256 := h a (by simp)
      have h1 : a / 4 < 64 := by omega
      have h2 : a % 4 * 16 < 64 := by omega
      simp only [b64encode, b64decode]
      rw [if_true, decChar_encChar _ h1, decChar_encChar _ h2]
      simp only [List.cons.injEq, and_true]
      omega
  | [a, b], h => by
      have ha : a < 256 := h a (by simp)
      have hb : b < 256 := h b (by simp)
      have h1 : a / 4 < 64 := by omega
      have h2 : a % 4 * 16 + b / 16 < 64 := by omega
      have h3 : b % 16 * 4 < 64 := by omega
      simp only [b64encode, b64decode]
      rw [if_neg (encChar_ne_pad _ h3), if_true,
        decChar_encChar _ h1, decChar_encChar _ h2, decChar_encChar _ h3]
      simp only [List.cons.injEq, and_true]
      constructor <;> omega
  | a :: b :: c :: rest, h => by
      have ha : a < 256 := h a (by simp)
      have hb : b < 256 := h b (by simp)
      have hc : c < 256 := h c (by simp)
      have ih := b64_roundtrip rest fun x hx => h x (by simp [hx])
      have h1 : a / 4 < 64 := by omega
      have h2 : a % 4 * 16 + b / 16 < 64 := by omega
      have h3 : b % 16 * 4 + c / 64 < 64 := by omega
      have h4 : c % 64 < 64 := by omega
      simp only [b64encode, b64decode]
      rw [if_neg (encChar_ne_pad _ h3), if_neg (encChar_ne_pad _ h4),
        decChar_encChar _ h1, decChar_encChar _ h2, decChar_encChar _ h3,
        decChar_encChar _ h4, ih]
      simp only [List.cons.injEq, and_true]
      refine ⟨by omega, by omega, by omega⟩

theorem int16ArrayToBytes_lt : ∀ qs : List Int, ∀ x ∈ int16ArrayToBytes qs, x < 256
  | [], x, hx => by simp [int16ArrayToBytes] at hx
  | q :: rest, x, hx => by
      have hu : (q % 65536).toNat < 65536 := by omega
      rcases List.mem_append.mp (by
          simpa only [int16ArrayToBytes, List.map_cons, List.flatten_cons] using hx) with
        h1 | h2
      · simp only [int16ToBytes, List.mem_cons, List.not_mem_nil, or_false] at h1
        rcases h1 with rfl | rfl <;> omega
      · exact int16ArrayToBytes_lt rest x h2

theorem bytesToInt16_int16ArrayToBytes :
    ∀ qs : List Int, (∀ q ∈ qs, -32768 ≤ q ∧ q ≤ 32767) →
      bytesToInt16 (int16ArrayToBytes qs) = qs
  | [], _ => rfl
  | q :: rest, h => by
      obtain ⟨hq1, hq2⟩ := h q (by simp)
      have ih := bytesToInt16_int16ArrayToBytes rest fun x hx => h x (by simp [hx])
      simp only [int16ArrayToBytes, List.map_cons, List.flatten_cons, int16ToBytes,
        List.cons_append, List.nil_append]
      simp only [int16ArrayToBytes] at ih
      rw [bytesToInt16, ih]
      congr 1
      split <;> omega

/-- C6: sending a 16-bit sample buffer through the wire — little-endian bytes,
`btoa` base64 text, then `atob` and the `(hi << 8) | lo` reassembly of
`pushTtsChunkBase64` with the Int16Array sign wrap — reproduces every sample
exactly, negative values included. -/
theorem wire_roundtrip_exact (qs : List Int) (h : ∀ q ∈ qs, -32768 ≤ q ∧ q ≤ 32767) :
    bytesToInt16 (b64decode (b64encode (int16ArrayToBytes qs))) = qs := by
  rw [b64_roundtrip _ (int16ArrayToBytes_lt qs)]
  exact bytesToInt16_int16ArrayToBytes qs h

/-- Witness for C6 on a buffer exercising both extremes, a negative value and
padding (5 samples = 10 bytes, a non-multiple of 3). -/
theorem wire_roundtrip_exact_witness :
    bytesToInt16 (b64decode (b64encode (int16ArrayToBytes [-32768, -1, 0, 1, 32767])))
      = [-32768, -1, 0, 1, 32767] :=
  wire_roundtrip_exact [-32768, -1, 0, 1, 32767] (by decide)

/-- The `PCMPlayer` worklet state: its input sample rate (from
`processorOptions.inputSampleRate`, default 24000), the FIFO sample buffer,
and the `ended` marker flag. -/
structure PCMPlayer where
  inputRate : ℚ
  buffer : List ℚ
  ended : Bool
deriving DecidableEq

/-- The player as constructed: empty buffer, no end marker. -/
def initPCMPlayer (inputSampleRate : Option ℚ) : PCMPlayer :=
  { inputRate := inputSampleRate.getD 24000, buffer := [], ended := false }

/-- `PCMPlayer.port.onmessage` with `{type:'chunk'}`: convert the 16-bit
samples to clamped floats, resample from the input rate to the device rate,
and append to the FIFO (`enqueue`). -/
def pcmChunk (p : PCMPlayer) (data : List Int) (sampleRate : ℚ) : PCMPlayer :=
  { p with buffer := p.buffer ++ resampleLinear (data.map int16ToFloatSample) p.inputRate sampleRate }

/-- `PCMPlayer.port.onmessage` with `{type:'end'}`: record the end marker;
nothing is posted and the buffer is untouched. -/
def pcmEnd (p : PCMPlayer) : PCMPlayer :=
  { p with ended := true }

/-- `PCMPlayer.process`: fill one output block of `n` device samples.  With
enough buffered samples, emit them and keep the rest; on underrun, emit what
remains zero-padded to `n`, clear the buffer, and — only if the end marker is
set — post `{type:'ended'}` (the Bool in the result) and clear the marker. -/
def pcmProcess (p : PCMPlayer) (n : Nat) : PCMPlayer × List ℚ × Bool :=
  if n ≤ p.buffer.length then
    ({ p with buffer := p.buffer.drop n }, p.buffer.take n, false)
  else
    ({ p with buffer := [], ended := false },
      p.buffer ++ List.replicate (n - p.buffer.length) 0,
      p.ended)

/-- C8: the playback pipeline reports end-of-stream through draining, never
through arrival: recording the end marker posts nothing and leaves the FIFO
untouched; a callback finding a full block never notifies and keeps the
marker; and a callback that underruns emits the remaining samples zero-padded
to exactly the block size, empties the FIFO, and notifies precisely when the
end marker is set. -/
theorem playback_end_reporting (p : PCMPlayer) (n : Nat) :
    ((pcmEnd p).buffer = p.buffer ∧ (pcmEnd p).ended = true) ∧
    (n ≤ p.buffer.length →
      (pcmProcess p n).2.2 = false ∧
      (pcmProcess p n).2.1 = p.buffer.take n ∧
      (pcmProcess p n).1.buffer = p.buffer.drop n ∧
      (pcmProcess p n).1.ended = p.ended) ∧
    (p.buffer.length < n →
      (pcmProcess p n).2.2 = p.ended ∧
      (pcmProcess p n).2.1 = p.buffer ++ List.replicate (n - p.buffer.length) 0 ∧
      (pcmProcess p n).2.1.length = n ∧
      (pcmProcess p n).1.buffer = []) := by
  refine ⟨⟨rfl, rfl⟩, ?_, ?_⟩
  · intro hn
    simp [pcmProcess, if_pos hn]
  · intro hn
    have hn' : ¬ n ≤ p.buffer.length := by omega
    refine ⟨?_, ?_, ?_, ?_⟩
    · simp [pcmProcess, if_neg hn']
    · simp [pcmProcess, if_neg hn']
    · simp only [pcmProcess, if_neg hn']
      simp only [List.length_append, List.length_replicate]
      omega
    · simp [pcmProcess, if_neg hn']

/-- Witness for C8: a one-sample buffer with the marker set serves a
one-sample block without notifying, and then notifies on a larger block. -/
theorem playback_end_reporting_witness :
    (pcmProcess ⟨24000, [(1 : ℚ)], true⟩ 1).2.2 = false ∧
    (pcmProcess ⟨24000, [(1 : ℚ)], true⟩ 4).2.2 = true :=
  ⟨((playback_end_reporting ⟨24000, [(1 : ℚ)], true⟩ 1).2.1 (by simp)).1,
   ((playback_end_reporting ⟨24000, [(1 : ℚ)], true⟩ 4).2.2 (by simp)).1⟩

/-- One action of the playback worklet after a notification: either a further
chunk message or a further output callback.  There is no end-marker action, so
a run of these models the period before a new `{type:'end'}` arrives. -/
inductive PAct where
  | chunk (data : List Int) (sampleRate : ℚ)
  | callback (n : Nat)

/-- Run the playback worklet through a sequence of actions, collecting whether
any callback posted the 'ended' notification. -/
def pcmRun (p : PCMPlayer) : List PAct → PCMPlayer × Bool
  | [] => (p, false)
  | PAct.chunk d r :: rest => pcmRun (pcmChunk p d r) rest
  | PAct.callback n :: rest =>
      let step := pcmProcess p n
      let next := pcmRun step.1 rest
      (next.1, step.2.2 || next.2)

theorem pcmRun_no_notification :
    ∀ (acts : List PAct) (p : PCMPlayer), p.ended = false → (pcmRun p acts).2 = false
  | [], _, _ => rfl
  | PAct.chunk d r :: rest, p, h => by
      simp only [pcmRun]
      exact pcmRun_no_notification rest (pcmChunk p d r) h
  | PAct.callback n :: rest, p, h => by
      simp only [pcmRun]
      have hstep : (pcmProcess p n).2.2 = false ∧ (pcmProcess p n).1.ended = false := by
        unfold pcmProcess
        split
        · exact ⟨rfl, h⟩
        · exact ⟨h, rfl⟩
      rw [hstep.1, Bool.false_or]
      exact pcmRun_no_notification rest _ hstep.2

/-- C10: the 'ended' notification is posted at most once per end marker — a
callback that posts it clears the marker in the same callback, and from then
on no run of further chunk deliveries and output callbacks (without a new end
marker) ever posts it again. -/
theorem ended_notified_once (p : PCMPlayer) (n : Nat) (acts : List PAct)
    (h : (pcmProcess p n).2.2 = true) :
    (pcmProcess p n).1.ended = false ∧ (pcmRun (pcmProcess p n).1 acts).2 = false := by
  have hend : (pcmProcess p n).1.ended = false := by
    unfold pcmProcess at h ⊢
    split at h
    · exact absurd h (by simp)
    · next hn =>
        rw [if_neg hn]
  exact ⟨hend, pcmRun_no_notification acts _ hend⟩

/-- Witness for C10: an empty-buffer callback with the marker set notifies,
then two further callbacks stay silent. -/
theorem ended_notified_once_witness :
    (pcmProcess ⟨24000, [], true⟩ 1).1.ended = false ∧
    (pcmRun (pcmProcess ⟨24000, [], true⟩ 1).1 [PAct.callback 1, PAct.callback 2]).2 = false :=
  ended_notified_once ⟨24000, [], true⟩ 1 [PAct.callback 1, PAct.callback 2] (by simp [pcmProcess])

end Voice
